import Mathlib

/-!
Verification of the CNE UDP file-transfer programs (client1.py, client2.py,
server1.py, server2.py).  Byte strings are modelled as `List Nat` (one entry
per byte value), Python `int` values as `Int` where signs can occur, and the
pseudo-random loss draws (`random.random() > LOSS_PROBABILITY`) as a boolean
stream `Nat → Bool` consumed one draw per sampling, with an explicit cursor.
-/

namespace CNE

/-- ASCII decimal digit test, modelling the regex class `\d` over bytes. -/
def isDigit (b : Nat) : Bool := 48 ≤ b && b ≤ 57

/-- Numeric value of a run of ASCII digits, as `int()` computes it. -/
def digitsVal (s : List Nat) : Nat := s.foldl (fun acc b => acc * 10 + (b - 48)) 0

/-- Fuel-driven core of decimal rendering: emits the ASCII digits of `n`
in front of `acc`.  `fuel > n` always suffices. -/
def toDecGo : Nat → Nat → List Nat → List Nat
  | 0, _, acc => acc
  | fuel + 1, n, acc =>
    if n < 10 then (48 + n) :: acc else toDecGo fuel (n / 10) ((48 + n % 10) :: acc)

/-- ASCII decimal rendering of a natural number, as Python `str`/f-strings
produce it (`str(0) = "0"`, no sign, no padding). -/
def toDecimal (n : Nat) : List Nat := toDecGo (n + 1) n []

/-- ASCII decimal rendering of a Python `int`, with a leading `-` for
negative values (`f"ACK:{expected_seq - 1}"` renders `-1` as `"-1"`). -/
def intToDecimal (i : Int) : List Nat :=
  if i < 0 then 45 :: toDecimal (-i).toNat else toDecimal i.toNat

/-- ASCII bytes of the literal header piece `"SEQ:"`. -/
def tagSEQ : List Nat := [83, 69, 81, 58]

/-- ASCII bytes of the literal header piece `"TOTAL:"`. -/
def tagTOTAL : List Nat := [84, 79, 84, 65, 76, 58]

/-- ASCII bytes of the delimiter `"|DATA:"` searched by `data.find(b"|DATA:")`. -/
def delimDATA : List Nat := [124, 68, 65, 84, 65, 58]

/-- ASCII bytes of the control-message prefix `"ACK:"`. -/
def ackTag : List Nat := [65, 67, 75, 58]

/-- Embeds `make_packet(seq, total, data)` of server1.py / client1.py / server2.py:
the UTF-8 bytes of `f"SEQ:{seq}|TOTAL:{total}|DATA:"` followed by the raw payload. -/
def make_packet (seq total : Nat) (data : List Nat) : List Nat :=
  tagSEQ ++ toDecimal seq ++ (124 :: tagTOTAL) ++ toDecimal total ++ delimDATA ++ data

/-- Embeds Python `bytes.find(sub)`: index of the first occurrence of `needle`
in `hay`, or `none` where Python returns `-1`. -/
def findSub (needle : List Nat) : List Nat → Option Nat
  | [] => if needle.isPrefixOf [] then some 0 else none
  | b :: rest =>
    if needle.isPrefixOf (b :: rest) then some 0
    else (findSub needle rest).map (· + 1)

/-- One position of the regex search `re.search(tag + r"(\d+)", s)`: succeeds
when `tag` occurs here followed by at least one digit, returning the value of
the maximal digit run (greedy `\d+`). -/
def matchTagDigits (tag s : List Nat) : Option Nat :=
  if tag.isPrefixOf s then
    let ds := (s.drop tag.length).takeWhile isDigit
    if ds.isEmpty then none else some (digitsVal ds)
  else none

/-- Leftmost-match semantics of `re.search` for the pattern `tag (\d+)`:
scan positions left to right, returning the first full match's value. -/
def searchNatAfter (tag : List Nat) : List Nat → Option Nat
  | [] => none
  | b :: rest =>
    match matchTagDigits tag (b :: rest) with
    | some v => some v
    | none => searchNatAfter tag rest

/-- Embeds `parse_packet(data)` of server1.py / client1.py / client2.py:
locate the first `"|DATA:"`, split header from payload, and extract `SEQ:` and
`TOTAL:` integers from the header by regex search; `none` models the
`(None, None, None)` failure returns. -/
def parse_packet (data : List Nat) : Option (Nat × Nat × List Nat) :=
  match findSub delimDATA data with
  | none => none
  | some i =>
    match searchNatAfter tagSEQ (data.take i), searchNatAfter tagTOTAL (data.take i) with
    | some seq, some total => some (seq, total, data.drop (i + 6))
    | _, _ => none

/-- The two transfer protocols. -/
inductive Protocol where
  | SR : Protocol
  | GBN : Protocol
deriving DecidableEq

/-- Embeds the download-side selection of server1.py `handle_download`
(line 188): `protocol = "SR" if file_size < 20*1024 else "GBN"`. -/
def protocolServer1Download (size : Nat) : Protocol :=
  if size < 20 * 1024 then Protocol.SR else Protocol.GBN

/-- Embeds the selection of server2.py `main` (line 180), character-identical
to server1's download selection. -/
def protocolServer2 (size : Nat) : Protocol :=
  if size < 20 * 1024 then Protocol.SR else Protocol.GBN

/-- Embeds the upload-side selection of client1.py `upload_file`
(lines 277-282): `if file_size > 20 * 1024:` choose GBN `else` SR. -/
def protocolClient1Upload (size : Nat) : Protocol :=
  if size > 20 * 1024 then Protocol.GBN else Protocol.SR

/-- Nat ceiling division, modelling `math.ceil(len(file_data) / PACKET_SIZE)`. -/
def natCeilDiv (a b : Nat) : Nat := (a + b - 1) / b

/-- Chunk count computed by client1.py `upload_file` (line 299). -/
def totalPacketsClient1 (size : Nat) : Nat := natCeilDiv size 1024

/-- Chunk count computed by server2.py `main` (line 188); the same expression
also appears in server1.py `handle_download` (line 194). -/
def totalPacketsServer2 (size : Nat) : Nat := natCeilDiv size 1024

/-- Embeds the chunking loops of server2.py `main` / client1.py `upload_file`:
`chunk = file_data[i * PACKET_SIZE : (i + 1) * PACKET_SIZE]` for
`i in range(total_packets)`. -/
def segment (blob : List Nat) (chunkSize : Nat) : List (List Nat) :=
  (List.range (natCeilDiv blob.length chunkSize)).map
    (fun i => (blob.drop (i * chunkSize)).take chunkSize)

/-- Embeds the reassembly of server1.py `handle_upload_sr` (lines 253-255) and
client2.py `main` (lines 168-170): concatenate the buffered payloads over
`sorted(received_packets.keys())`; the chunk map is an insertion-ordered
association list mirroring the Python dict. -/
def reassemble (m : List (Nat × List Nat)) : List Nat :=
  (List.insertionSort (· ≤ ·) (m.map Prod.fst)).foldl
    (fun acc k => acc ++ ((m.lookup k).getD [])) []

/-- A chunk map is complete for `total` when every `seq` in `0..total-1` is
present; this is the precondition the spec's `reassemble` demands. -/
def complete (m : List (Nat × List Nat)) (total : Nat) : Prop :=
  ∀ s, s < total → (m.lookup s).isSome = true

instance (m : List (Nat × List Nat)) (total : Nat) : Decidable (complete m total) := by
  unfold complete; infer_instance

/-- Embeds `str.split(":")` on bytes: split on the byte 58. -/
def splitColon : List Nat → List (List Nat)
  | [] => [[]]
  | b :: rest =>
    match splitColon rest with
    | [] => if b = 58 then [[], [b]] else [[b]]
    | h :: t => if b = 58 then [] :: h :: t else (b :: h) :: t

/-- Embeds Python `int()` on an ASCII byte string: an optional sign followed
by at least one decimal digit; `none` models the `ValueError` cases. -/
def intFromBytes (s : List Nat) : Option Int :=
  match s with
  | 45 :: rest =>
    if rest ≠ [] ∧ rest.all isDigit then some (-(digitsVal rest : Int)) else none
  | 43 :: rest =>
    if rest ≠ [] ∧ rest.all isDigit then some ((digitsVal rest : Int)) else none
  | _ => if s ≠ [] ∧ s.all isDigit then some ((digitsVal s : Int)) else none

/-- Embeds the ACK handling shared by every sender loop:
`if ack_msg.startswith("ACK:"): ack_num = int(ack_msg.split(":")[1])`;
`none` means the datagram does not update the sender. -/
def parseAck (msg : List Nat) : Option Int :=
  if ackTag.isPrefixOf msg then
    match (splitColon msg).get? 1 with
    | some piece => intFromBytes piece
    | none => none
  else none

/-- State of the cumulative GBN senders of client1.py `upload_gbn_send` and
server2.py `gbn_send`: window base and next sequence number (Python ints). -/
structure GbnSenderState where
  base : Int
  nextSeq : Int
deriving DecidableEq

/-- Embeds the ACK branch of client1.py `upload_gbn_send` (lines 220-221) and
server2.py `gbn_send` (lines 91-92): `if ack_num >= base: base = ack_num + 1`;
any other ACK leaves the state untouched. -/
def gbnCumAckStep (st : GbnSenderState) (k : Int) : GbnSenderState :=
  if k ≥ st.base then { st with base := k + 1 } else st

/-- State of the per-packet GBN sender of server1.py `gbn_send`: window base
plus the `ack_received` boolean array. -/
structure Gbn1SenderState where
  base : Nat
  ackReceived : List Bool
deriving DecidableEq

/-- Fuel-driven loop `while base < total and ack_received[base]: base += 1`;
the fuel `total - base` makes the loop structural. -/
def slideGo : Nat → List Bool → Nat → Nat
  | 0, _, base => base
  | fuel + 1, ar, base =>
    if ar.getD base false = true then slideGo fuel ar (base + 1) else base

/-- The window slide of server1.py `gbn_send` (lines 110-111). -/
def slideBase (total : Nat) (ar : List Bool) (base : Nat) : Nat :=
  slideGo (total - base) ar base

/-- Embeds the ACK branch of server1.py `gbn_send` (lines 107-111):
`if 0 <= ack_num < total: ack_received[ack_num] = True` then slide `base`
over consecutively acknowledged packets. -/
def gbn1AckStep (total : Nat) (st : Gbn1SenderState) (k : Int) : Gbn1SenderState :=
  if 0 ≤ k ∧ k < (total : Int) then
    { base := slideBase total (st.ackReceived.set k.toNat true) st.base,
      ackReceived := st.ackReceived.set k.toNat true }
  else st

/-- State of the SR senders of client1.py `upload_sr_send` and
server1/server2 `sr_send`: the `acked` boolean array and the window of
in-flight packets (an insertion-ordered association list, like the dict). -/
structure SrSenderState where
  acked : List Bool
  window : List (Nat × List Nat)
deriving DecidableEq

/-- Embeds the ACK branch of client1.py `upload_sr_send` (lines 253-257) and
server1/server2 `sr_send`: `if 0 <= ack_num < total and not acked[ack_num]:`
mark acked and delete the window entry; anything else changes nothing. -/
def srSenderAck (total : Nat) (st : SrSenderState) (k : Int) : SrSenderState :=
  if 0 ≤ k ∧ k < (total : Int) ∧ st.acked.getD k.toNat false = false then
    { acked := st.acked.set k.toNat true,
      window := st.window.filter (fun p => p.1 != k.toNat) }
  else st

/-- Receiver state of server1.py `handle_upload_sr`: the chunk map (Python
dict in insertion order) and the once-set `expected_total`. -/
structure SrRecvState where
  receivedPackets : List (Nat × List Nat)
  expectedTotal : Option Nat
deriving DecidableEq

/-- Embeds one non-`"END"` iteration of server1.py `handle_upload_sr`
(lines 234-246): parse the datagram, record `expected_total` on first
contact, buffer an unseen `seq`, and reply `f"ACK:{seq}"`; a parse failure
replies nothing. -/
def srRecvStep (st : SrRecvState) (data : List Nat) : SrRecvState × Option (List Nat) :=
  match parse_packet data with
  | none => (st, none)
  | some (seq, total, content) =>
    ({ receivedPackets :=
        if (st.receivedPackets.lookup seq).isSome then st.receivedPackets
        else st.receivedPackets ++ [(seq, content)],
       expectedTotal := some (st.expectedTotal.getD total) },
     some (ackTag ++ toDecimal seq))

/-- Embeds the dispatch reality of server1.py: `packet_data, addr =
sock.recvfrom(4096)` binds the datagram's source address but the session
logic never consults it, and every ACK goes to the session's `client_addr`.
Returns (new state, optional ACK bytes, ACK destination). -/
def srRecvStepFrom (sessionPeer srcAddr : Nat) (st : SrRecvState) (data : List Nat) :
    SrRecvState × Option (List Nat) × Nat :=
  ((srRecvStep st data).1, (srRecvStep st data).2, sessionPeer)

/-- Receiver state of server1.py `handle_upload_gbn` and client2.py `main`:
`expected_seq` (a Python int) and the in-order buffered payloads. -/
structure GbnRecvState where
  expectedSeq : Int
  receivedData : List (List Nat)
deriving DecidableEq

/-- Embeds one non-`"END"` iteration of server1.py `handle_upload_gbn`
(lines 283-296) and client2.py `main` (lines 121-143): accept exactly the
expected sequence number, then always reply `f"ACK:{expected_seq - 1}"`. -/
def gbnRecvStep (st : GbnRecvState) (data : List Nat) : GbnRecvState × Option (List Nat) :=
  match parse_packet data with
  | none => (st, none)
  | some (seq, _total, content) =>
    if (seq : Int) = st.expectedSeq then
      ({ expectedSeq := st.expectedSeq + 1, receivedData := st.receivedData ++ [content] },
       some (ackTag ++ intToDecimal (st.expectedSeq + 1 - 1)))
    else
      (st, some (ackTag ++ intToDecimal (st.expectedSeq - 1)))

/-- Embeds the guarded send pattern used by every window-fill loop
(client1.py `upload_gbn_send` lines 205-212, `upload_sr_send` lines 238-246,
server1/2 likewise): for each pending packet draw once
(`random.random() > LOSS_PROBABILITY`, here `d j`) and transmit only on a
permitting draw.  `i` is the cursor into the draw stream; the result is
(bytes actually put on the wire, new cursor). -/
def lossySends (d : Nat → Bool) (i : Nat) : List (List Nat) → List (List Nat) × Nat
  | [] => ([], i)
  | p :: ps =>
    ((if d i then p :: (lossySends d (i + 1) ps).1 else (lossySends d (i + 1) ps).1),
      (lossySends d (i + 1) ps).2)

/-- Embeds the timeout handler of server2.py `sr_send` (lines 141-150) and
server1.py `sr_send` (lines 163-171): walk the window, skip acknowledged
entries, and draw once per retransmission attempt. -/
def srTimeoutRetransmit (d : Nat → Bool) (i : Nat) (acked : List Bool) :
    List (Nat × List Nat) → List (List Nat) × Nat
  | [] => ([], i)
  | (s, pkt) :: rest =>
    if acked.getD s false = true then srTimeoutRetransmit d i acked rest
    else
      ((if d i then pkt :: (srTimeoutRetransmit d (i + 1) acked rest).1
        else (srTimeoutRetransmit d (i + 1) acked rest).1),
        (srTimeoutRetransmit d (i + 1) acked rest).2)

/-- Embeds the timeout handler of client1.py `upload_sr_send` (lines 259-261):
`for seq in list(window.keys()): sock.sendto(window[seq], server_addr)` —
every window packet is sent and the draw stream is never consulted. -/
def client1SrTimeoutRetransmit (d : Nat → Bool) (i : Nat)
    (window : List (Nat × List Nat)) : List (List Nat) × Nat :=
  ((window.map Prod.fst).filterMap (fun s => window.lookup s), i)

lemma toDecGo_acc (fuel : Nat) : ∀ n acc, toDecGo fuel n acc = toDecGo fuel n [] ++ acc := by
  induction fuel with
  | zero => intro n acc; simp [toDecGo]
  | succ f ih =>
    intro n acc
    by_cases h : n < 10
    · simp [toDecGo, h]
    · simp only [toDecGo, if_neg h]
      rw [ih (n / 10) ((48 + n % 10) :: acc), ih (n / 10) [48 + n % 10]]
      simp

lemma toDecGo_fuel : ∀ n f1 f2, n < f1 → n < f2 → toDecGo f1 n [] = toDecGo f2 n []
  | n, f1, f2, h1, h2 => by
    match f1, f2 with
    | g1 + 1, g2 + 1 =>
      by_cases h : n < 10
      · simp [toDecGo, h]
      · simp only [toDecGo, if_neg h]
        rw [toDecGo_acc g1, toDecGo_acc g2]
        have hdiv : n / 10 < n := Nat.div_lt_self (by omega) (by omega)
        rw [toDecGo_fuel (n / 10) g1 g2 (by omega) (by omega)]
termination_by n _ _ _ _ => n

/-- The recurrence that `toDecimal` satisfies. -/
lemma toDecimal_eq (n : Nat) :
    toDecimal n = if n < 10 then [48 + n] else toDecimal (n / 10) ++ [48 + n % 10] := by
  by_cases h : n < 10
  · simp [toDecimal, toDecGo, h]
  · have hdiv : n / 10 < n := Nat.div_lt_self (by omega) (by omega)
    have h1 : toDecimal n = toDecGo n (n / 10) [48 + n % 10] := by
      simp [toDecimal, toDecGo, h]
    rw [h1, toDecGo_acc n, toDecGo_fuel (n / 10) n (n / 10 + 1) (by omega) (by omega), if_neg h]
    rfl

lemma toDecimal_ne_nil (n : Nat) : toDecimal n ≠ [] := by
  rw [toDecimal_eq]
  by_cases h : n < 10 <;> simp [h]

lemma toDecimal_all_digits : ∀ n, ∀ b ∈ toDecimal n, isDigit b = true
  | n => by
    rw [toDecimal_eq]
    by_cases h : n < 10
    · simp only [if_pos h, List.mem_singleton]
      rintro b rfl
      simp [isDigit]; omega
    · simp only [if_neg h, List.mem_append, List.mem_singleton]
      rintro b (hb | rfl)
      · have hdiv : n / 10 < n := Nat.div_lt_self (by omega) (by omega)
        exact toDecimal_all_digits (n / 10) b hb
      · have : n % 10 < 10 := Nat.mod_lt _ (by omega)
        simp [isDigit]; omega
termination_by n => n

lemma digitsVal_append_singleton (s : List Nat) (b : Nat) :
    digitsVal (s ++ [b]) = digitsVal s * 10 + (b - 48) := by
  simp [digitsVal, List.foldl_append]

lemma digitsVal_toDecimal : ∀ n, digitsVal (toDecimal n) = n
  | n => by
    rw [toDecimal_eq]
    by_cases h : n < 10
    · simp [if_pos h, digitsVal]
    · have hdiv : n / 10 < n := Nat.div_lt_self (by omega) (by omega)
      rw [if_neg h, digitsVal_append_singleton, digitsVal_toDecimal (n / 10)]
      omega
termination_by n => n

lemma isPrefixOf_append_self (l t : List Nat) : l.isPrefixOf (l ++ t) = true := by
  induction l with
  | nil => simp [List.isPrefixOf]
  | cons a as ih => simp [List.isPrefixOf, ih]

lemma takeWhile_all_append (p : Nat → Bool) (l : List Nat) (b : Nat) (r : List Nat)
    (hl : ∀ x ∈ l, p x = true) (hb : p b = false) :
    (l ++ b :: r).takeWhile p = l := by
  induction l with
  | nil => simp [List.takeWhile, hb]
  | cons a as ih =>
    have ha : p a = true := hl a (by simp)
    simp only [List.cons_append, List.takeWhile_cons, ha, if_true]
    rw [ih (fun x hx => hl x (by simp [hx]))]

lemma takeWhile_all (p : Nat → Bool) (l : List Nat) (hl : ∀ x ∈ l, p x = true) :
    l.takeWhile p = l := by
  induction l with
  | nil => rfl
  | cons a as ih =>
    have ha : p a = true := hl a (by simp)
    simp only [List.takeWhile_cons, ha, if_true]
    rw [ih (fun x hx => hl x (by simp [hx]))]

lemma findSub_cons_neg (needle : List Nat) (b : Nat) (rest : List Nat)
    (h : needle.isPrefixOf (b :: rest) = false) :
    findSub needle (b :: rest) = (findSub needle rest).map (· + 1) := by
  simp [findSub, h]

lemma findSub_skip (n0 : Nat) (ntail : List Nat) (pre rest : List Nat)
    (h : ∀ x ∈ pre, x ≠ n0) :
    findSub (n0 :: ntail) (pre ++ rest) =
      (findSub (n0 :: ntail) rest).map (· + pre.length) := by
  induction pre with
  | nil => cases hr : findSub (n0 :: ntail) rest <;> simp [hr]
  | cons a as ih =>
    have ha : a ≠ n0 := h a (by simp)
    have hpf : (n0 :: ntail).isPrefixOf (a :: (as ++ rest)) = false := by
      simp [List.isPrefixOf]
      intro hc; exact absurd hc.symm ha
    rw [List.cons_append, findSub_cons_neg _ _ _ hpf, ih (fun x hx => h x (by simp [hx]))]
    cases hr : findSub (n0 :: ntail) rest <;> simp [hr]; omega

lemma findSub_self (needle rest : List Nat) :
    findSub needle (needle ++ rest) = some 0 := by
  have hp : needle.isPrefixOf (needle ++ rest) = true := isPrefixOf_append_self needle rest
  cases hne : needle ++ rest with
  | nil =>
    have h0 : needle = [] := by
      cases needle with
      | nil => rfl
      | cons x xs => simp at hne
    subst h0
    simp [findSub, List.isPrefixOf]
  | cons b bs =>
    rw [hne] at hp
    simp [findSub, hp]

lemma searchNat_cons_neg (tag : List Nat) (b : Nat) (rest : List Nat)
    (h : tag.isPrefixOf (b :: rest) = false) :
    searchNatAfter tag (b :: rest) = searchNatAfter tag rest := by
  simp [searchNatAfter, matchTagDigits, h]

lemma searchNat_skip (t0 : Nat) (ttail : List Nat) (pre rest : List Nat)
    (h : ∀ x ∈ pre, x ≠ t0) :
    searchNatAfter (t0 :: ttail) (pre ++ rest) = searchNatAfter (t0 :: ttail) rest := by
  induction pre with
  | nil => rfl
  | cons a as ih =>
    have ha : a ≠ t0 := h a (by simp)
    have hpf : (t0 :: ttail).isPrefixOf (a :: (as ++ rest)) = false := by
      simp [List.isPrefixOf]
      intro hc; exact absurd hc.symm ha
    rw [List.cons_append, searchNat_cons_neg _ _ _ hpf]
    exact ih (fun x hx => h x (by simp [hx]))

lemma digit_ne_bar {b : Nat} (h : isDigit b = true) : b ≠ 124 := by
  simp [isDigit] at h; omega

lemma digit_ne_T {b : Nat} (h : isDigit b = true) : b ≠ 84 := by
  simp [isDigit] at h; omega

/-- In the encoded frame the first occurrence of `"|DATA:"` is the one the
encoder wrote: it sits right after `SEQ:<digits>|TOTAL:<digits>`. -/
lemma findSub_make_packet (seq total : Nat) (data : List Nat) :
    findSub delimDATA (make_packet seq total data) =
      some (11 + (toDecimal seq).length + (toDecimal total).length) := by
  have hds := toDecimal_all_digits seq
  have hdt := toDecimal_all_digits total
  have hpre1 : ∀ x ∈ tagSEQ ++ toDecimal seq, x ≠ 124 := by
    intro x hx
    rcases List.mem_append.mp hx with hx | hx
    · simp [tagSEQ] at hx; omega
    · exact digit_ne_bar (hds x hx)
  have hpre2 : ∀ x ∈ tagTOTAL ++ toDecimal total, x ≠ 124 := by
    intro x hx
    rcases List.mem_append.mp hx with hx | hx
    · simp [tagTOTAL] at hx; omega
    · exact digit_ne_bar (hdt x hx)
  have hshape : make_packet seq total data =
      (tagSEQ ++ toDecimal seq) ++
        (124 :: ((tagTOTAL ++ toDecimal total) ++ (delimDATA ++ data))) := by
    simp [make_packet]
  have hskip1 : findSub delimDATA
      ((tagSEQ ++ toDecimal seq) ++
        (124 :: ((tagTOTAL ++ toDecimal total) ++ (delimDATA ++ data)))) =
      (findSub delimDATA
        (124 :: ((tagTOTAL ++ toDecimal total) ++ (delimDATA ++ data)))).map
        (· + (tagSEQ ++ toDecimal seq).length) :=
    findSub_skip 124 [68, 65, 84, 65, 58] _ _ hpre1
  have hpf : delimDATA.isPrefixOf
      (124 :: ((tagTOTAL ++ toDecimal total) ++ (delimDATA ++ data))) = false := by
    simp [delimDATA, tagTOTAL, List.isPrefixOf]
  have hskip2 : findSub delimDATA
      ((tagTOTAL ++ toDecimal total) ++ (delimDATA ++ data)) =
      (findSub delimDATA (delimDATA ++ data)).map
        (· + (tagTOTAL ++ toDecimal total).length) :=
    findSub_skip 124 [68, 65, 84, 65, 58] _ _ hpre2
  rw [hshape, hskip1, findSub_cons_neg _ _ _ hpf, hskip2, findSub_self delimDATA data]
  simp [tagSEQ, tagTOTAL]
  omega

lemma matchTag_digits_append (tag ds : List Nat) (b : Nat) (r : List Nat)
    (hds : ∀ x ∈ ds, isDigit x = true) (hne : ds ≠ []) (hb : isDigit b = false) :
    matchTagDigits tag (tag ++ (ds ++ b :: r)) = some (digitsVal ds) := by
  simp only [matchTagDigits, isPrefixOf_append_self, if_true, List.drop_left]
  rw [takeWhile_all_append isDigit ds b r hds hb]
  cases ds with
  | nil => exact absurd rfl hne
  | cons x xs => simp

lemma matchTag_digits_end (tag ds : List Nat)
    (hds : ∀ x ∈ ds, isDigit x = true) (hne : ds ≠ []) :
    matchTagDigits tag (tag ++ ds) = some (digitsVal ds) := by
  simp only [matchTagDigits, isPrefixOf_append_self, if_true, List.drop_left]
  rw [takeWhile_all isDigit ds hds]
  cases ds with
  | nil => exact absurd rfl hne
  | cons x xs => simp

lemma searchNat_cons_pos (tag : List Nat) (b : Nat) (rest : List Nat) (v : Nat)
    (h : matchTagDigits tag (b :: rest) = some v) :
    searchNatAfter tag (b :: rest) = some v := by
  simp [searchNatAfter, h]

/-- Searching the encoded header for `SEQ:(\d+)` recovers `seq`. -/
lemma searchSEQ_header (seq total : Nat) :
    searchNatAfter tagSEQ
      (tagSEQ ++ (toDecimal seq ++ (124 :: (tagTOTAL ++ toDecimal total)))) = some seq := by
  have hmatch : matchTagDigits tagSEQ
      (tagSEQ ++ (toDecimal seq ++ (124 :: (tagTOTAL ++ toDecimal total)))) = some seq := by
    rw [matchTag_digits_append tagSEQ (toDecimal seq) 124 (tagTOTAL ++ toDecimal total)
      (toDecimal_all_digits seq) (toDecimal_ne_nil seq) rfl, digitsVal_toDecimal]
  have hcons : tagSEQ ++ (toDecimal seq ++ (124 :: (tagTOTAL ++ toDecimal total))) =
      83 :: (69 :: 81 :: 58 :: (toDecimal seq ++ (124 :: (tagTOTAL ++ toDecimal total)))) := rfl
  rw [hcons] at hmatch ⊢
  exact searchNat_cons_pos _ _ _ _ hmatch

/-- Searching the encoded header for `TOTAL:(\d+)` recovers `total`: no byte
before the real `TOTAL:` literal can start a match, since `SEQ:`, the decimal
digits and the `|` are all different from `T`. -/
lemma searchTOTAL_header (seq total : Nat) :
    searchNatAfter tagTOTAL
      (tagSEQ ++ (toDecimal seq ++ (124 :: (tagTOTAL ++ toDecimal total)))) = some total := by
  have hpre : ∀ x ∈ tagSEQ ++ (toDecimal seq ++ [124]), x ≠ 84 := by
    intro x hx
    rcases List.mem_append.mp hx with hx | hx
    · simp [tagSEQ] at hx; omega
    · rcases List.mem_append.mp hx with hx | hx
      · exact digit_ne_T (toDecimal_all_digits seq x hx)
      · simp at hx; omega
  have hshape : tagSEQ ++ (toDecimal seq ++ (124 :: (tagTOTAL ++ toDecimal total))) =
      (tagSEQ ++ (toDecimal seq ++ [124])) ++ (tagTOTAL ++ toDecimal total) := by
    simp
  have hskip : searchNatAfter tagTOTAL
      ((tagSEQ ++ (toDecimal seq ++ [124])) ++ (tagTOTAL ++ toDecimal total)) =
      searchNatAfter tagTOTAL (tagTOTAL ++ toDecimal total) :=
    searchNat_skip 84 [79, 84, 65, 76, 58] _ _ hpre
  rw [hshape, hskip]
  have hmatch : matchTagDigits tagTOTAL (tagTOTAL ++ toDecimal total) = some total := by
    rw [matchTag_digits_end tagTOTAL (toDecimal total)
      (toDecimal_all_digits total) (toDecimal_ne_nil total), digitsVal_toDecimal]
  have hcons : tagTOTAL ++ toDecimal total =
      84 :: (79 :: 84 :: 65 :: 76 :: 58 :: toDecimal total) := rfl
  rw [hcons] at hmatch ⊢
  exact searchNat_cons_pos _ _ _ _ hmatch

/-- Decoding an encoded frame recovers the original triple; shared by several
claims below. -/
lemma parse_make (seq total : Nat) (payload : List Nat) :
    parse_packet (make_packet seq total payload) = some (seq, total, payload) := by
  have hfind := findSub_make_packet seq total payload
  have hheader : make_packet seq total payload =
      (tagSEQ ++ (toDecimal seq ++ (124 :: (tagTOTAL ++ toDecimal total)))) ++
        (delimDATA ++ payload) := by
    simp [make_packet]
  have hlen : (tagSEQ ++ (toDecimal seq ++ (124 :: (tagTOTAL ++ toDecimal total)))).length =
      11 + (toDecimal seq).length + (toDecimal total).length := by
    simp [tagSEQ, tagTOTAL]; omega
  have htake : (make_packet seq total payload).take
      (11 + (toDecimal seq).length + (toDecimal total).length) =
      tagSEQ ++ (toDecimal seq ++ (124 :: (tagTOTAL ++ toDecimal total))) := by
    rw [hheader]; exact List.take_left' hlen
  have hlen2 : ((tagSEQ ++ (toDecimal seq ++ (124 :: (tagTOTAL ++ toDecimal total)))) ++
      delimDATA).length =
      11 + (toDecimal seq).length + (toDecimal total).length + 6 := by
    simp [tagSEQ, tagTOTAL, delimDATA]; omega
  have hdrop : (make_packet seq total payload).drop
      (11 + (toDecimal seq).length + (toDecimal total).length + 6) = payload := by
    rw [hheader, ← List.append_assoc]
    exact List.drop_left' hlen2
  unfold parse_packet
  rw [hfind]
  simp only [htake, hdrop, searchSEQ_header seq total, searchTOTAL_header seq total]

lemma set_getD_self : ∀ (l : List Bool) (i : Nat), l.getD i false = true → l.set i true = l
  | [], _, _ => rfl
  | b :: bs, 0, h => by simp_all
  | b :: bs, i + 1, h => by
    simp only [List.getD_cons_succ] at h
    simp [List.set, set_getD_self bs i h]

lemma lossySends_spec (d : Nat → Bool) (pkts : List (List Nat)) : ∀ i,
    lossySends d i pkts =
      (((List.enumFrom i pkts).filter (fun q => d q.1)).map Prod.snd, i + pkts.length) := by
  induction pkts with
  | nil => intro i; simp [lossySends]
  | cons p ps ih =>
    intro i
    simp only [lossySends, ih (i + 1), List.enumFrom, List.filter_cons]
    by_cases h : d i <;> simp [h] <;> omega

lemma srTimeoutRetransmit_spec (d : Nat → Bool) (acked : List Bool)
    (w : List (Nat × List Nat)) : ∀ i,
    srTimeoutRetransmit d i acked w =
      (((List.enumFrom i (w.filter (fun q => !acked.getD q.1 false))).filter
          (fun q => d q.1)).map (fun q => q.2.2),
        i + (w.filter (fun q => !acked.getD q.1 false)).length) := by
  induction w with
  | nil => intro i; simp [srTimeoutRetransmit]
  | cons e rest ih =>
    intro i
    match e with
    | (s, pkt) =>
      by_cases ha : acked.getD s false = true
      · simp only [srTimeoutRetransmit, ha, if_true, ih i, List.filter_cons]
        simp [ha]
      · have ha' : acked.getD s false = false := by
          cases hv : acked.getD s false
          · rfl
          · exact absurd hv ha
        simp only [srTimeoutRetransmit, ha', Bool.false_eq_true, if_false, ih (i + 1),
          List.filter_cons, ha', Bool.not_false, if_true, List.enumFrom]
        by_cases h : d i <;> simp [h, List.filter_cons] <;> omega

/-- Claim C1, counterexample: the claim demands SR for every size up to and
including 20*1024 bytes, but server1's download selection
(`"SR" if file_size < 20*1024 else "GBN"`) picks GBN at exactly 20 KiB. -/
theorem C1_counterexample : protocolServer1Download (20 * 1024) ≠ Protocol.SR := by
  decide

/-- Claim C1, amended: strictly above the threshold every selector picks GBN
and strictly below it every selector picks SR, and server1 and server2 use
the identical selector; but at exactly 20*1024 bytes the client upload
selector picks SR while the server download selector picks GBN, so the two
ends agree everywhere except at exactly the threshold. -/
theorem C1_amended (size : Nat) :
    (20 * 1024 < size →
      protocolClient1Upload size = Protocol.GBN ∧
        protocolServer1Download size = Protocol.GBN) ∧
    (size < 20 * 1024 →
      protocolClient1Upload size = Protocol.SR ∧
        protocolServer1Download size = Protocol.SR) ∧
    protocolClient1Upload (20 * 1024) = Protocol.SR ∧
    protocolServer1Download (20 * 1024) = Protocol.GBN ∧
    protocolServer1Download size = protocolServer2 size := by
  refine ⟨fun h => ?_, fun h => ?_, by decide, by decide, rfl⟩
  · unfold protocolClient1Upload protocolServer1Download
    rw [if_pos h, if_neg (by omega)]
    exact ⟨rfl, rfl⟩
  · unfold protocolClient1Upload protocolServer1Download
    rw [if_neg (by omega), if_pos h]
    exact ⟨rfl, rfl⟩

/-- Witness for C1_amended at sizes one above and one below the threshold. -/
theorem C1_amended_witness :
    (protocolClient1Upload 20481 = Protocol.GBN ∧
      protocolServer1Download 20481 = Protocol.GBN) ∧
    (protocolClient1Upload 20479 = Protocol.SR ∧
      protocolServer1Download 20479 = Protocol.SR) :=
  ⟨(C1_amended 20481).1 (by decide), (C1_amended 20479).2.1 (by decide)⟩

/-- Claim C2, counterexample: the chunk map `{0 ↦ [1], 2 ↦ [3]}` is missing
seq 1 of 3, yet `reassemble` happily returns the blob `[1, 3]` instead of
failing — no `IncompleteTransferError` exists in the code. -/
theorem C2_counterexample :
    ¬ complete [(0, [1]), (2, [3])] 3 ∧ reassemble [(0, [1]), (2, [3])] = [1, 3] := by
  constructor
  · decide
  · decide

/-- Claim C2, amended: reassembly performs no completeness check and returns
a blob for every chunk map; when the map's keys are exactly `0..total-1` it
concatenates the payloads in strictly ascending sequence order. -/
theorem C2_amended (total : Nat) (m : List (Nat × List Nat))
    (hkeys : (m.map Prod.fst).Perm (List.range total)) :
    reassemble m =
      (List.range total).foldl (fun acc s => acc ++ ((m.lookup s).getD [])) [] := by
  unfold reassemble
  have hsort : List.insertionSort (· ≤ ·) (m.map Prod.fst) = List.range total :=
    List.eq_of_perm_of_sorted ((List.perm_insertionSort _ _).trans hkeys)
      (List.sorted_insertionSort _ _) (List.sorted_le_range total)
  rw [hsort]

/-- Witness for C2_amended on a two-chunk map received out of order. -/
theorem C2_amended_witness :
    ([(1, [5]), (0, [4])].map Prod.fst).Perm (List.range 2) ∧
    reassemble [(1, [5]), (0, [4])] =
      (List.range 2).foldl (fun acc s => acc ++ (([(1, [5]), (0, [4])].lookup s).getD [])) [] :=
  ⟨by decide, C2_amended 2 [(1, [5]), (0, [4])] (by decide)⟩

/-- Claim C3 (confirmed): codec round-trip — for every sequence number, total
and payload byte string (including payloads containing the `"|DATA:"`
delimiter), decoding the frame produced by the encoder returns exactly the
original triple, with the payload intact byte for byte. -/
theorem C3_codec_roundtrip (seq total : Nat) (payload : List Nat) :
    parse_packet (make_packet seq total payload) = some (seq, total, payload) :=
  parse_make seq total payload

/-- Claim C4, counterexample: server1's `gbn_send` — one of the GBN senders
the claim covers — does not slide cumulatively: at base 0 with nothing yet
acknowledged, `ACK:3` only marks packet 3 and leaves base at 0, not 4. -/
theorem C4_counterexample :
    (gbn1AckStep 4 ⟨0, [false, false, false, false]⟩ 3).base ≠ 3 + 1 := by
  decide

/-- Claim C4, amended: the cumulative GBN senders (client1 `upload_gbn_send`,
server2 `gbn_send`) behave exactly as claimed — `ACK:k` with `k ≥ base` sets
`base = k + 1`, a stale `ACK:k < base` changes nothing, and the send loop
terminates precisely when `base` reaches `total` (given `base ≤ total`).
server1's `gbn_send` instead keeps a per-packet `ack_received` array and
slides `base` only over consecutively acknowledged packets, so there a stale
in-range ACK is also a no-op, but an ACK above an unacknowledged gap does not
move `base` to `k + 1`. -/
theorem C4_amended (st : GbnSenderState) (k : Int) (total : Nat) (st1 : Gbn1SenderState) :
    (k ≥ st.base → gbnCumAckStep st k = { base := k + 1, nextSeq := st.nextSeq }) ∧
    (k < st.base → gbnCumAckStep st k = st) ∧
    (st.base ≤ (total : Int) → (¬ st.base < (total : Int) ↔ st.base = total)) ∧
    ((∀ i, i < st1.base → st1.ackReceived.getD i false = true) →
      (st1.base < total → st1.ackReceived.getD st1.base false = false) →
      0 ≤ k → k < (st1.base : Int) → gbn1AckStep total st1 k = st1) := by
  refine ⟨fun h => ?_, fun h => ?_, fun h => by omega, fun hpre hpost h0 hk => ?_⟩
  · simp [gbnCumAckStep, h]
  · simp [gbnCumAckStep, not_le.mpr h]
  · unfold gbn1AckStep
    by_cases hcond : 0 ≤ k ∧ k < (total : Int)
    · rw [if_pos hcond]
      have hklt : k.toNat < st1.base := by omega
      have hset : st1.ackReceived.set k.toNat true = st1.ackReceived :=
        set_getD_self _ _ (hpre k.toNat hklt)
      rw [hset]
      have hslide : slideBase total st1.ackReceived st1.base = st1.base := by
        unfold slideBase
        by_cases hb : st1.base < total
        · have hfuel : total - st1.base = (total - st1.base - 1) + 1 := by omega
          rw [hfuel]
          simp only [slideGo]
          rw [hpost hb]
          simp
        · have hfuel : total - st1.base = 0 := by omega
          rw [hfuel]
          rfl
      rw [hslide]
    · rw [if_neg hcond]

/-- Witness for C4_amended: a fresh cumulative slide, a stale cumulative ACK,
a base-equals-total termination check, and a stale ACK at server1's sender. -/
theorem C4_amended_witness :
    gbnCumAckStep ⟨0, 0⟩ 2 = { base := 3, nextSeq := 0 } ∧
    gbnCumAckStep ⟨5, 5⟩ 2 = ⟨5, 5⟩ ∧
    (¬ (3 : Int) < ((3 : Nat) : Int) ↔ (3 : Int) = ((3 : Nat) : Int)) ∧
    gbn1AckStep 3 ⟨2, [true, true, false]⟩ 1 = ⟨2, [true, true, false]⟩ :=
  ⟨(C4_amended ⟨0, 0⟩ 2 3 ⟨2, [true, true, false]⟩).1 (by decide),
   (C4_amended ⟨5, 5⟩ 2 3 ⟨2, [true, true, false]⟩).2.1 (by decide),
   (C4_amended ⟨3, 0⟩ 2 3 ⟨2, [true, true, false]⟩).2.2.1 (by decide),
   (C4_amended ⟨5, 5⟩ 1 3 ⟨2, [true, true, false]⟩).2.2.2
     (by decide) (by decide) (by decide) (by decide)⟩

/-- Claim C5, counterexample: under the all-suppressing draw stream, client1
`upload_sr_send`'s timeout handler still puts its window packet on the wire
and consumes no draw at all — this send attempt is not subjected to any loss
draw, contradicting the claim that every retransmission is. -/
theorem C5_counterexample :
    (client1SrTimeoutRetransmit (fun _ => false) 0 [(0, [7])]).1 = [[7]] ∧
    (client1SrTimeoutRetransmit (fun _ => false) 0 [(0, [7])]).2 = 0 := by
  constructor
  · decide
  · decide

/-- Claim C5, amended: the window-fill send loops and the server-side SR
timeout handlers draw independently exactly once per attempted packet and
transmit exactly the packets with a permitting draw (suppression raises
nothing, the packet is simply absent from the wire); but client1
`upload_sr_send`'s timeout handler retransmits every window packet
unconditionally, consuming no draw. -/
theorem C5_amended (d : Nat → Bool) (i : Nat) (pkts : List (List Nat))
    (acked : List Bool) (w : List (Nat × List Nat)) :
    lossySends d i pkts =
      (((List.enumFrom i pkts).filter (fun q => d q.1)).map Prod.snd, i + pkts.length) ∧
    srTimeoutRetransmit d i acked w =
      (((List.enumFrom i (w.filter (fun q => !acked.getD q.1 false))).filter
          (fun q => d q.1)).map (fun q => q.2.2),
        i + (w.filter (fun q => !acked.getD q.1 false)).length) ∧
    client1SrTimeoutRetransmit d i w =
      ((w.map Prod.fst).filterMap (fun s => w.lookup s), i) :=
  ⟨lossySends_spec d pkts i, srTimeoutRetransmit_spec d acked w i, rfl⟩

/-- Claim C6, counterexample: segmenting a 25,000-byte blob with chunk size
1024 does not end with an 808-byte chunk; the last chunk has
25000 − 24·1024 = 424 bytes. -/
theorem C6_counterexample :
    (segment (List.replicate 25000 0) 1024).map List.length ≠
      List.replicate 24 1024 ++ [808] := by
  have h25 : natCeilDiv (List.replicate 25000 (0 : Nat)).length 1024 = 25 := by
    rw [List.length_replicate]
    decide
  have h : (segment (List.replicate 25000 0) 1024).map List.length =
      (List.range 25).map (fun i => min 1024 (25000 - i * 1024)) := by
    unfold segment
    rw [h25, List.map_map]
    apply List.map_congr_left
    intro i hi
    simp only [Function.comp_apply]
    rw [List.length_take, List.length_drop, List.length_replicate]
  rw [h]
  decide

/-- Claim C6, amended: a 25,000-byte blob with chunk size 1024 yields
`total = 25` — 24 full 1024-byte chunks followed by one last chunk of 424
bytes — and both the server's and the client's selectors pick GBN for it. -/
theorem C6_amended :
    totalPacketsClient1 25000 = 25 ∧
    (segment (List.replicate 25000 0) 1024).length = 25 ∧
    (segment (List.replicate 25000 0) 1024).map List.length =
      List.replicate 24 1024 ++ [424] ∧
    protocolServer1Download 25000 = Protocol.GBN ∧
    protocolClient1Upload 25000 = Protocol.GBN := by
  have h25 : natCeilDiv (List.replicate 25000 (0 : Nat)).length 1024 = 25 := by
    rw [List.length_replicate]
    decide
  have h : (segment (List.replicate 25000 0) 1024).map List.length =
      (List.range 25).map (fun i => min 1024 (25000 - i * 1024)) := by
    unfold segment
    rw [h25, List.map_map]
    apply List.map_congr_left
    intro i hi
    simp only [Function.comp_apply]
    rw [List.length_take, List.length_drop, List.length_replicate]
  refine ⟨by decide, ?_, ?_, by decide, by decide⟩
  · unfold segment
    rw [h25, List.length_map, List.length_range]
  · rw [h]; decide

/-- Claim C7, counterexample: the server session bound to peer 1 buffers a
frame arriving from the unrelated address 2 — a non-peer datagram mutates the
session's chunk map, violating the claimed isolation. -/
theorem C7_counterexample :
    (srRecvStepFrom 1 2 ⟨[], none⟩ (make_packet 0 1 [9])).1 ≠
      (⟨[], none⟩ : SrRecvState) := by
  decide

/-- Claim C7, amended: server1 keeps one session at a time and its receive
step is completely blind to the datagram's source address — processing a
datagram from any two addresses yields identical results, every ACK goes to
the session's bound peer, and a valid unseen frame from any address is
buffered into the single active chunk map.  Distinct concurrent peers are
therefore not isolated; they share one chunk map. -/
theorem C7_amended (peer a b : Nat) (st : SrRecvState) (data : List Nat)
    (seq total : Nat) (content : List Nat)
    (hfresh : st.receivedPackets.lookup seq = none) :
    srRecvStepFrom peer a st data = srRecvStepFrom peer b st data ∧
    (srRecvStepFrom peer a st data).2.2 = peer ∧
    (srRecvStepFrom peer a st (make_packet seq total content)).1.receivedPackets =
      st.receivedPackets ++ [(seq, content)] := by
  refine ⟨rfl, rfl, ?_⟩
  simp [srRecvStepFrom, srRecvStep, parse_make, hfresh]

/-- Witness for C7_amended: a fresh frame from foreign address 2 lands in the
session of peer 1. -/
theorem C7_amended_witness :
    srRecvStepFrom 1 2 (⟨[], none⟩ : SrRecvState) [0] =
      srRecvStepFrom 1 3 (⟨[], none⟩ : SrRecvState) [0] ∧
    (srRecvStepFrom 1 2 (⟨[], none⟩ : SrRecvState) [0]).2.2 = 1 ∧
    (srRecvStepFrom 1 2 (⟨[], none⟩ : SrRecvState)
      (make_packet 0 1 [9])).1.receivedPackets = [] ++ [(0, [9])] :=
  C7_amended 1 2 3 ⟨[], none⟩ [0] 0 1 [9] (by decide)

/-- Claim C8, counterexample: for an empty blob the code computes
`total = ceil(0/1024) = 0`, not at least 1, and segmentation yields zero
frames, not one empty-payload frame. -/
theorem C8_counterexample :
    ¬ 1 ≤ totalPacketsClient1 0 ∧ segment [] 1024 = [] := by
  constructor
  · decide
  · decide

/-- Claim C8, amended: both senders derive the chunk count by the identical
formula `total = ceil(size / 1024)`, segmentation produces exactly that many
chunks, and `total ≥ 1` holds for every non-empty blob; but an empty blob
gives `total = 0` and an empty transfer carries zero frames. -/
theorem C8_amended (n : Nat) (blob : List Nat) :
    totalPacketsClient1 n = totalPacketsServer2 n ∧
    (segment blob 1024).length = totalPacketsClient1 blob.length ∧
    (0 < n → 1 ≤ totalPacketsClient1 n) ∧
    totalPacketsClient1 0 = 0 := by
  refine ⟨rfl, ?_, fun h => ?_, rfl⟩
  · simp [segment, totalPacketsClient1]
  · unfold totalPacketsClient1 natCeilDiv
    omega

/-- Witness for C8_amended at the spec's 500-byte scenario. -/
theorem C8_amended_witness :
    totalPacketsClient1 500 = totalPacketsServer2 500 ∧ 1 ≤ totalPacketsClient1 500 :=
  ⟨(C8_amended 500 []).1, (C8_amended 500 []).2.2.1 (by decide)⟩

/-- Claim C9 (confirmed): idempotent re-delivery in SR — a valid frame whose
seq is already buffered leaves the receiver's chunk map unchanged while still
being acknowledged with `ACK:seq`, and an `ACK:k` the SR sender has already
processed (its `acked[k]` is set) leaves the sender's acked array and window
untouched. -/
theorem C9_idempotent (st : SrRecvState) (seq total : Nat) (payload : List Nat)
    (sst : SrSenderState) (stotal : Nat) (k : Int)
    (hdup : (st.receivedPackets.lookup seq).isSome = true)
    (hacked : 0 ≤ k ∧ k < (stotal : Int) ∧ sst.acked.getD k.toNat false = true) :
    (srRecvStep st (make_packet seq total payload)).1.receivedPackets =
      st.receivedPackets ∧
    (srRecvStep st (make_packet seq total payload)).2 = some (ackTag ++ toDecimal seq) ∧
    srSenderAck stotal sst k = sst := by
  refine ⟨?_, ?_, ?_⟩
  · simp [srRecvStep, parse_make, hdup]
  · simp [srRecvStep, parse_make]
  · unfold srSenderAck
    rw [if_neg]
    rintro ⟨h1, h2, h3⟩
    rw [hacked.2.2] at h3
    cases h3

/-- Witness for C9_idempotent: a duplicate of frame 0 and a replayed ACK 0. -/
theorem C9_idempotent_witness :
    (srRecvStep ⟨[(0, [1])], some 1⟩ (make_packet 0 1 [2])).1.receivedPackets =
      [(0, [1])] ∧
    (srRecvStep ⟨[(0, [1])], some 1⟩ (make_packet 0 1 [2])).2 =
      some (ackTag ++ toDecimal 0) ∧
    srSenderAck 1 ⟨[true], []⟩ 0 = ⟨[true], []⟩ :=
  C9_idempotent ⟨[(0, [1])], some 1⟩ 0 1 [2] ⟨[true], []⟩ 1 0 (by decide)
    ⟨by decide, by decide, by decide⟩

/-- Claim C10 (confirmed): a GBN receiver that has accepted nothing yet
(expectedSeq 0, empty buffer) replies the literal `"ACK:-1"` to any valid
frame with nonzero seq, leaving its state unchanged; the ACK parser reads
that literal as −1, and all three sender kinds treat −1 as a no-op — the
cumulative sender because −1 is below its (nonnegative) base, the per-packet
GBN and SR senders because the `0 <= k < total` guard fails. -/
theorem C10_ack_minus_one (seq total : Nat) (payload : List Nat)
    (st2 : GbnSenderState) (t1 : Nat) (st1 : Gbn1SenderState) (sst : SrSenderState)
    (hseq : seq ≠ 0) (hbase : 0 ≤ st2.base) :
    (gbnRecvStep ⟨0, []⟩ (make_packet seq total payload)).1 =
      (⟨0, []⟩ : GbnRecvState) ∧
    (gbnRecvStep ⟨0, []⟩ (make_packet seq total payload)).2 =
      some [65, 67, 75, 58, 45, 49] ∧
    parseAck [65, 67, 75, 58, 45, 49] = some (-1) ∧
    gbnCumAckStep st2 (-1) = st2 ∧
    gbn1AckStep t1 st1 (-1) = st1 ∧
    srSenderAck t1 sst (-1) = sst := by
  have hne : ((seq : Int) = (0 : Int)) = False := by
    simp [hseq]
  refine ⟨?_, ?_, by decide, ?_, ?_, ?_⟩
  · simp [gbnRecvStep, parse_make, hne]
  · simp [gbnRecvStep, parse_make, hne]
    decide
  · unfold gbnCumAckStep
    rw [if_neg (by omega)]
  · unfold gbn1AckStep
    rw [if_neg]
    rintro ⟨h1, h2⟩
    omega
  · unfold srSenderAck
    rw [if_neg]
    rintro ⟨h1, h2, h3⟩
    omega

/-- Witness for C10_ack_minus_one on frame 1 of 2 against fresh senders. -/
theorem C10_ack_minus_one_witness :
    (gbnRecvStep ⟨0, []⟩ (make_packet 1 2 [])).1 = (⟨0, []⟩ : GbnRecvState) ∧
    (gbnRecvStep ⟨0, []⟩ (make_packet 1 2 [])).2 = some [65, 67, 75, 58, 45, 49] ∧
    parseAck [65, 67, 75, 58, 45, 49] = some (-1) ∧
    gbnCumAckStep ⟨0, 0⟩ (-1) = ⟨0, 0⟩ ∧
    gbn1AckStep 1 ⟨0, [false]⟩ (-1) = ⟨0, [false]⟩ ∧
    srSenderAck 1 ⟨[false], []⟩ (-1) = ⟨[false], []⟩ :=
  C10_ack_minus_one 1 2 [] ⟨0, 0⟩ 1 ⟨0, [false]⟩ ⟨[false], []⟩ (by decide) (by decide)

end CNE
